import Mathlib

/-!
Shallow embedding of `src/rl_exercises/week_2/my_env.py` (`class MyEnv`).

Modelling conventions:
* Python floats carried by `P` and `rewards` are never subjected to arithmetic
  by the code — they are only copied (the `float(...)` calls are identity on the
  carried value) — so they are modelled by `ℚ`, which is executable and has
  decidable equality.
* NumPy arrays built by the code (`T`, `R`) are modelled as total functions
  `Nat → ... → ℚ`; `np.zeros` becomes the constantly-zero function and an
  assignment `T[s, a, s2] = v` becomes a pointwise functional update.  All
  indices written by the loops are in range for the shapes the code allocates.
* Python attribute access to `self.transition_count`, which `__init__` never
  sets, is modelled with `Option`: the field is `none` until `reset` assigns it,
  and `step` fails with an `attributeError` when it reads `none`.
* `step` returns the (possibly mutated) instance together with an `Except`
  value: Python raising an exception corresponds to the `.error` case, and the
  mutations performed before the raise are kept in the returned instance,
  matching Python's in-place mutation order.
* List indexing `self.rewards[i]` (which can raise `IndexError` in Python) is
  modelled by `List.get?`, with `none` mapped to an `indexError` result.
-/

/-- Entry lookup in a matrix given as a list of rows; indices used by the code
are in range whenever the matrix has the shape the code assumes, so the
default `0` is never consulted in those cases. -/
def getD2 (P : List (List ℚ)) (s a : Nat) : ℚ :=
  (P.getD s []).getD a 0

/-- Python `max(0, min(n - 1, s + (-1 if a == 0 else 1)))`, the clamped
successor rule shared by `step`, `get_reward_per_action` and
`get_transition_matrix`. -/
def clampStep (n : Nat) (s : Nat) (a : Int) : Nat :=
  (max 0 (min ((n : Int) - 1) ((s : Int) + (if a = 0 then -1 else 1)))).toNat

/-- Body of `MyEnv.get_transition_matrix` once its three arrays are fixed:
`T = np.zeros((nS, nA, nS))` followed by the double loop
`for s in S: for a in A: T[s, a, s_next] = float(P[s, a])` with
`s_next = max(0, min(nS - 1, s + (-1 if a == 0 else 1)))` and `nS = len(S)`. -/
def buildT (S A : List Nat) (P : List (List ℚ)) : Nat → Nat → Nat → ℚ :=
  let nS := S.length
  S.foldl
    (fun T s => A.foldl
      (fun T a => fun s' a' s2' =>
        if s' = s ∧ a' = a ∧ s2' = clampStep nS s (a : Int) then getD2 P s a
        else T s' a' s2')
      T)
    (fun _ _ _ => 0)

/-- Errors `step` can raise: the `RuntimeError` for an invalid action (the
spec's `InvalidAction`), the `AttributeError` from reading the never-initialized
`transition_count`, and the `IndexError` from `self.rewards[self.state]`. -/
inductive StepError where
  | invalidAction
  | attributeError
  | indexError
deriving DecidableEq, Repr

/-- Auxiliary info dictionary returned by `reset` and `step`; the code only
ever returns the empty dictionary `{}`. -/
abbrev Info := List (String × ℚ)

/-- Fields of a `MyEnv` instance.  `rng` is omitted: the deterministic logic
never consults it.  `observation_space` and `action_space` are `Discrete(n)`
spaces, represented by their size `n`.  `transition_matrix` and the alias `T`
are the same cached object, so a single field models both. -/
structure MyEnv where
  P : List (List ℚ)
  rewards : List ℚ
  horizon : Int
  state : Nat
  observation_space_n : Nat
  action_space_n : Nat
  states : List Nat
  actions : List Nat
  transition_matrix : Nat → Nat → Nat → ℚ
  transition_count : Option Int

namespace MyEnv

/-- `MyEnv.__init__`: stores `P`, `rewards`, `horizon`, sets `state = 0`,
creates `Discrete(n)` spaces with `n = P.shape[0]`, sets
`states = actions = np.arange(n)`, and caches
`self.transition_matrix = self.T = self.get_transition_matrix()` (which, with
no arguments, is `buildT states actions P`).  Note: `transition_count` is NOT
assigned here, hence `none`. -/
def init (transition_probabilities : List (List ℚ)) (horizon : Int)
    (rewards : List ℚ) : MyEnv :=
  let P := transition_probabilities
  let n := P.length
  { P := P
    rewards := rewards
    horizon := horizon
    state := 0
    observation_space_n := n
    action_space_n := n
    states := List.range n
    actions := List.range n
    transition_matrix := buildT (List.range n) (List.range n) P
    transition_count := none }

/-- `MyEnv.reset`: sets `transition_count = 0` and `state = 0`, returns
`(self.state, {})`.  The `seed` and `options` parameters are unused by the
body and omitted. -/
def reset (env : MyEnv) : MyEnv × Nat × Info :=
  let env2 : MyEnv := { env with transition_count := some 0, state := 0 }
  (env2, env2.state, [])

/-- `MyEnv.step`: validates `action` against `Discrete(n).contains` (raising
otherwise), clamps the new state into `[0, observation_space.n - 1]`, reads
`reward = float(self.rewards[self.state])`, sets `terminated = False`,
computes `truncated = self.transition_count >= self.horizon`, and returns
`(state, reward, terminated, truncated, {})`.  The first component of the
result is the instance after the call (mutated even when a later line
raises, matching Python's in-place update order). -/
def step (env : MyEnv) (action : Int) :
    MyEnv × Except StepError (Nat × ℚ × Bool × Bool × Info) :=
  if 0 ≤ action ∧ action < (env.action_space_n : Int) then
    let env2 : MyEnv :=
      { env with state := clampStep env.observation_space_n env.state action }
    (env2,
      match env2.rewards.get? env2.state, env2.transition_count with
      | none, _ => .error .indexError
      | some _, none => .error .attributeError
      | some reward, some tc =>
        .ok (env2.state, reward, false, decide (env2.horizon ≤ tc), []))
  else
    (env, .error .invalidAction)

/-- `MyEnv.get_reward_per_action`: `R = np.zeros((nS, nA))` then
`for s in range(nS): for a in range(nA): R[s, a] = float(rewards[nxt])` with
`nxt = max(0, min(nS - 1, s + (-1 if a == 0 else 1)))`. -/
def get_reward_per_action (env : MyEnv) : Nat → Nat → ℚ :=
  let nS := env.observation_space_n
  let nA := env.action_space_n
  (List.range nS).foldl
    (fun R s => (List.range nA).foldl
      (fun R a => fun s' a' =>
        if s' = s ∧ a' = a then env.rewards.getD (clampStep nS s (a : Int)) 0
        else R s' a')
      R)
    (fun _ _ => 0)

/-- `MyEnv.get_transition_matrix`: `if S is None or A is None or P is None:`
all three fall back to the instance fields `self.states`, `self.actions`,
`self.P` together; only when all three are supplied are the arguments used.
Then the tensor is built by `buildT`. -/
def get_transition_matrix (env : MyEnv) (So Ao : Option (List Nat))
    (Po : Option (List (List ℚ))) : Nat → Nat → Nat → ℚ :=
  match So, Ao, Po with
  | some S, some A, some P => buildT S A P
  | _, _, _ => buildT env.states env.actions env.P

/-- Structural invariants established by `__init__` and preserved by every
operation: the space sizes equal `P.shape[0]`, `states` and `actions` are
`np.arange(n)`, and the cached tensor is the one the constructor computed. -/
def WF (env : MyEnv) : Prop :=
  env.observation_space_n = env.P.length ∧
  env.action_space_n = env.P.length ∧
  env.states = List.range env.P.length ∧
  env.actions = List.range env.P.length ∧
  env.transition_matrix = buildT (List.range env.P.length)
    (List.range env.P.length) env.P

end MyEnv

example : (MyEnv.init [[1, 1], [1, 1]] 10 [0, 1]).state = 0 := by decide

example :
    ((MyEnv.init [[1, 1], [1, 1]] 10 [0, 1]).reset.1.step 1).2 =
      .ok (1, 1, false, false, []) := by rfl

example :
    ((MyEnv.init [[1, 1], [1, 1]] 10 [0, 1]).step 1).2 =
      .error .attributeError := by rfl

example :
    ((MyEnv.init [[1, 1], [1, 1]] 10 [0, 1]).step 2).2 =
      .error .invalidAction := by rfl

example :
    (MyEnv.init [[1, 1], [1, 1]] 10 [0, 1]).get_transition_matrix none none
      none 0 1 1 = 1 := by decide

example :
    (MyEnv.init [[1, 1], [1, 1]] 10 [0, 1]).get_transition_matrix none none
      none 0 1 0 = 0 := by decide

example :
    (MyEnv.init [[1, 1], [1, 1]] 10 [0, 1]).get_reward_per_action 0 1 = 1 := by
  decide

/-- The clamped successor always lands in `[0, n-1]` when `n > 0`. -/
theorem clampStep_lt (n s : Nat) (a : Int) (hn : 0 < n) : clampStep n s a < n := by
  unfold clampStep
  split_ifs <;> omega

/-- Entry of the inner loop of `buildT` (the fold over actions at a fixed
state `s`). -/
theorem buildT_inner_apply (nS : Nat) (P : List (List ℚ)) (s : Nat)
    (A : List Nat) (T : Nat → Nat → Nat → ℚ) (s' a' s2' : Nat) :
    (A.foldl
      (fun T (a : Nat) => fun s' a' s2' =>
        if s' = s ∧ a' = a ∧ s2' = clampStep nS s (a : Int) then getD2 P s a
        else T s' a' s2')
      T) s' a' s2' =
    if s' = s ∧ a' ∈ A ∧ s2' = clampStep nS s (a' : Int) then getD2 P s a'
    else T s' a' s2' := by
  induction A generalizing T with
  | nil => simp
  | cons a rest ih =>
    simp only [List.foldl_cons, ih, List.mem_cons]
    split_ifs <;> simp_all

/-- Entry of the outer loop of `buildT` (the fold over states). -/
theorem buildT_outer_apply (nS : Nat) (P : List (List ℚ)) (A S : List Nat)
    (T : Nat → Nat → Nat → ℚ) (s' a' s2' : Nat) :
    (S.foldl
      (fun T (s : Nat) => A.foldl
        (fun T (a : Nat) => fun s' a' s2' =>
          if s' = s ∧ a' = a ∧ s2' = clampStep nS s (a : Int) then getD2 P s a
          else T s' a' s2')
        T)
      T) s' a' s2' =
    if s' ∈ S ∧ a' ∈ A ∧ s2' = clampStep nS s' (a' : Int) then getD2 P s' a'
    else T s' a' s2' := by
  induction S generalizing T with
  | nil => simp
  | cons s rest ih =>
    simp only [List.foldl_cons, ih, buildT_inner_apply, List.mem_cons]
    split_ifs <;> simp_all

/-- Closed form for the entries of the tensor built by
`get_transition_matrix`'s loops. -/
theorem buildT_apply (S A : List Nat) (P : List (List ℚ)) (s a s2 : Nat) :
    buildT S A P s a s2 =
    if s ∈ S ∧ a ∈ A ∧ s2 = clampStep S.length s (a : Int) then getD2 P s a
    else 0 := by
  unfold buildT
  exact buildT_outer_apply S.length P A S (fun _ _ _ => 0) s a s2

/-- Entry of the inner loop of `get_reward_per_action`. -/
theorem rpa_inner_apply (f : Nat → Nat → ℚ) (s : Nat) (A : List Nat)
    (R : Nat → Nat → ℚ) (s' a' : Nat) :
    (A.foldl
      (fun R (a : Nat) => fun s' a' => if s' = s ∧ a' = a then f s a else R s' a')
      R) s' a' =
    if s' = s ∧ a' ∈ A then f s a' else R s' a' := by
  induction A generalizing R with
  | nil => simp
  | cons a rest ih =>
    simp only [List.foldl_cons, ih, List.mem_cons]
    split_ifs <;> simp_all

/-- Entry of the outer loop of `get_reward_per_action`. -/
theorem rpa_outer_apply (f : Nat → Nat → ℚ) (A S : List Nat)
    (R : Nat → Nat → ℚ) (s' a' : Nat) :
    (S.foldl
      (fun R (s : Nat) => A.foldl
        (fun R (a : Nat) => fun s' a' => if s' = s ∧ a' = a then f s a else R s' a')
        R)
      R) s' a' =
    if s' ∈ S ∧ a' ∈ A then f s' a' else R s' a' := by
  induction S generalizing R with
  | nil => simp
  | cons s rest ih =>
    simp only [List.foldl_cons, ih, rpa_inner_apply, List.mem_cons]
    split_ifs <;> simp_all

/-- Closed form for the entries of the table built by
`get_reward_per_action`'s loops. -/
theorem get_reward_per_action_apply (env : MyEnv) (s a : Nat) :
    env.get_reward_per_action s a =
    if s < env.observation_space_n ∧ a < env.action_space_n then
      env.rewards.getD (clampStep env.observation_space_n s (a : Int)) 0
    else 0 := by
  unfold MyEnv.get_reward_per_action
  rw [rpa_outer_apply
    (fun s a => env.rewards.getD (clampStep env.observation_space_n s (a : Int)) 0)]
  simp [List.mem_range]

/-- An operation trace: the instance after applying a sequence of `step`
calls (an episode's actions) to `env`, keeping the mutated instance whether
or not each call raised. -/
def stepsFrom (env : MyEnv) : List Int → MyEnv
  | [] => env
  | a :: acts => stepsFrom ((env.step a).1) acts

/-- After `step`, the instance is either unchanged (invalid action) or has
only its `state` field updated. -/
theorem step_fst_cases (env : MyEnv) (a : Int) :
    (env.step a).1 = env ∨
    (env.step a).1 =
      { env with state := clampStep env.observation_space_n env.state a } := by
  unfold MyEnv.step
  split_ifs with h
  · right; rfl
  · left; rfl

/-- `step` changes no field other than `state`. -/
theorem step_frame (env : MyEnv) (a : Int) :
    (env.step a).1.P = env.P ∧ (env.step a).1.rewards = env.rewards ∧
    (env.step a).1.horizon = env.horizon ∧
    (env.step a).1.observation_space_n = env.observation_space_n ∧
    (env.step a).1.action_space_n = env.action_space_n ∧
    (env.step a).1.states = env.states ∧
    (env.step a).1.actions = env.actions ∧
    (env.step a).1.transition_matrix = env.transition_matrix ∧
    (env.step a).1.transition_count = env.transition_count := by
  rcases step_fst_cases env a with h | h <;> rw [h] <;>
    exact ⟨rfl, rfl, rfl, rfl, rfl, rfl, rfl, rfl, rfl⟩

/-- A trace of `step` calls never changes `transition_count`. -/
theorem stepsFrom_transition_count (env : MyEnv) (acts : List Int) :
    (stepsFrom env acts).transition_count = env.transition_count := by
  induction acts generalizing env with
  | nil => rfl
  | cons a acts ih =>
    simp only [stepsFrom]
    rw [ih]
    exact (step_frame env a).2.2.2.2.2.2.2.2

/-- A trace of `step` calls never changes `horizon`. -/
theorem stepsFrom_horizon (env : MyEnv) (acts : List Int) :
    (stepsFrom env acts).horizon = env.horizon := by
  induction acts generalizing env with
  | nil => rfl
  | cons a acts ih =>
    simp only [stepsFrom]
    rw [ih]
    exact (step_frame env a).2.2.1

/-- Whenever `step` returns normally, the instance had an initialized
`transition_count = tc`, `terminated` is `false`, and `truncated` is the
comparison `transition_count >= horizon`. -/
theorem step_ok_spec (env : MyEnv) (a : Int) (ns : Nat) (r : ℚ) (te tr : Bool)
    (info : Info) (h : (env.step a).2 = .ok (ns, r, te, tr, info)) :
    ∃ tc, env.transition_count = some tc ∧ te = false ∧
      tr = decide (env.horizon ≤ tc) := by
  unfold MyEnv.step at h
  split_ifs at h with hv
  · dsimp only at h
    rcases hg : env.rewards.get? (clampStep env.observation_space_n env.state a)
      with _ | v
    · rw [hg] at h
      simp at h
    · rw [hg] at h
      rcases htc : env.transition_count with _ | tc
      · rw [htc] at h
        simp at h
      · rw [htc] at h
        simp only [Except.ok.injEq, Prod.mk.injEq] at h
        exact ⟨tc, rfl, h.2.2.1.symm, h.2.2.2.1.symm⟩

/-- `step` returns normally exactly when the action is valid and the episode
state is fully initialized, and then the result is determined by the clamped
successor rule. -/
theorem step_eq_of_valid (env : MyEnv) (a : Int) (tc : Int)
    (h0 : 0 ≤ a) (h1 : a < (env.action_space_n : Int))
    (h2 : clampStep env.observation_space_n env.state a < env.rewards.length)
    (h3 : env.transition_count = some tc) :
    env.step a =
      ({ env with state := clampStep env.observation_space_n env.state a },
        .ok (clampStep env.observation_space_n env.state a,
          env.rewards.getD (clampStep env.observation_space_n env.state a) 0,
          false, decide (env.horizon ≤ tc), [])) := by
  unfold MyEnv.step
  rw [if_pos ⟨h0, h1⟩]
  dsimp only
  rcases hg : env.rewards.get? (clampStep env.observation_space_n env.state a)
    with _ | v
  · rw [List.get?_eq_none] at hg
    omega
  · have hv : env.rewards.getD (clampStep env.observation_space_n env.state a)
        0 = v := by
      rw [List.getD_eq_get?, hg]
      rfl
    rw [h3, hv]

/-- `__init__` establishes the structural invariants. -/
theorem init_WF (P : List (List ℚ)) (h : Int) (r : List ℚ) :
    (MyEnv.init P h r).WF :=
  ⟨rfl, rfl, rfl, rfl, rfl⟩

/-- `reset` preserves the structural invariants. -/
theorem reset_WF (env : MyEnv) (h : env.WF) : (env.reset).1.WF := h

/-- `step` preserves the structural invariants. -/
theorem step_WF (env : MyEnv) (a : Int) (h : env.WF) : (env.step a).1.WF := by
  obtain ⟨f1, f2, f3, f4, f5, f6, f7, f8, f9⟩ := step_frame env a
  obtain ⟨w1, w2, w3, w4, w5⟩ := h
  exact ⟨by rw [f1, f4, w1], by rw [f1, f5, w2], by rw [f1, f6, w3],
    by rw [f1, f7, w4], by rw [f1, f8, w5]⟩

/-- C1: for every instance with `n` states (the data model gives it `n`
rewards), every current state in `[0, n-1]`, and every valid action in
`{0, ..., n-1}`, `step` sets and returns
`nextState = clamp(state + (action == 0 ? -1 : +1), 0, n-1)` — hence the
successor is always in `[0, n-1]` — and returns `reward = rewards[nextState]`
(the return values exist once the episode's counter attribute is set). -/
theorem claim_C1_step_transition (env : MyEnv) (a : Int) (tc : Int)
    (hWF : env.WF) (hrew : env.P.length ≤ env.rewards.length)
    (hs : env.state < env.P.length)
    (ha0 : 0 ≤ a) (ha1 : a < (env.P.length : Int))
    (htc : env.transition_count = some tc) :
    (env.step a).1.state = clampStep env.P.length env.state a ∧
    clampStep env.P.length env.state a < env.P.length ∧
    (env.step a).2 = .ok (clampStep env.P.length env.state a,
      env.rewards.getD (clampStep env.P.length env.state a) 0, false,
      decide (env.horizon ≤ tc), []) := by
  obtain ⟨w1, w2, -, -, -⟩ := hWF
  have hn : 0 < env.P.length := by omega
  have hcl : clampStep env.P.length env.state a < env.P.length :=
    clampStep_lt _ _ _ hn
  have h2 : clampStep env.observation_space_n env.state a <
      env.rewards.length := by
    rw [w1]
    omega
  have hstep := step_eq_of_valid env a tc ha0 (by rw [w2]; exact ha1) h2 htc
  rw [hstep]
  rw [w1]
  exact ⟨rfl, hcl, rfl⟩

/-- C1 witness: a concrete episode step on the default-shaped instance. -/
theorem claim_C1_witness :
    ((MyEnv.init [[1, 1], [1, 1]] 10 [0, 1]).reset.1.step 1).1.state = 1 ∧
    ((MyEnv.init [[1, 1], [1, 1]] 10 [0, 1]).reset.1.step 1).2 =
      .ok (1, 1, false, false, []) := by
  have h := claim_C1_step_transition
    (MyEnv.init [[1, 1], [1, 1]] 10 [0, 1]).reset.1 1 0
    ⟨rfl, rfl, rfl, rfl, rfl⟩ (by decide) (by decide) (by decide) (by decide)
    (by rfl)
  refine ⟨by rw [h.1]; rfl, by rw [h.2.2]; rfl⟩

/-- C2: along any episode (a `reset` followed by any sequence of `step`
calls), every normal `step` return has
`truncated = (transition_count >= horizon)`; since `step` never changes
`transition_count`, the counter stays `0` for the whole episode, so
`truncated` is `false` on every step whenever the horizon is positive. -/
theorem claim_C2_truncated_dead (env : MyEnv) (acts : List Int)
    (hpos : 0 < env.horizon) :
    (stepsFrom (env.reset).1 acts).transition_count = some 0 ∧
    ∀ a ns r te tr info,
      ((stepsFrom (env.reset).1 acts).step a).2 = .ok (ns, r, te, tr, info) →
      tr = decide ((stepsFrom (env.reset).1 acts).horizon ≤ 0) ∧
      tr = false := by
  have htc : (stepsFrom (env.reset).1 acts).transition_count = some 0 := by
    rw [stepsFrom_transition_count]
    rfl
  refine ⟨htc, fun a ns r te tr info h => ?_⟩
  obtain ⟨tc, htc2, -, htr⟩ := step_ok_spec _ a ns r te tr info h
  rw [htc] at htc2
  have h0 : (0 : Int) = tc := by injection htc2
  have hh : (stepsFrom (env.reset).1 acts).horizon = env.horizon := by
    rw [stepsFrom_horizon]
    rfl
  rw [← h0] at htr
  refine ⟨htr, ?_⟩
  rw [htr, hh]
  exact decide_eq_false (by omega)

/-- C2 witness: a concrete two-step episode followed by a third step. -/
theorem claim_C2_witness :
    (stepsFrom ((MyEnv.init [[1, 1], [1, 1]] 10 [0, 1]).reset).1
      [1, 0]).transition_count = some 0 ∧ (false : Bool) = false := by
  have h := claim_C2_truncated_dead (MyEnv.init [[1, 1], [1, 1]] 10 [0, 1])
    [1, 0] (by decide)
  exact ⟨h.1, (h.2 1 1 1 false false [] (by rfl)).2⟩

/-- C5: `step` raises the invalid-action error exactly when the integer
action is outside `{0, ..., n-1}`, and in that case the instance is
completely unchanged (no partial-failure state). -/
theorem claim_C5_invalid_action (env : MyEnv) (a : Int) :
    ((env.step a).2 = .error .invalidAction ↔
      ¬ (0 ≤ a ∧ a < (env.action_space_n : Int))) ∧
    ((env.step a).2 = .error .invalidAction → (env.step a).1 = env) := by
  by_cases hv : 0 ≤ a ∧ a < (env.action_space_n : Int)
  · have hne : (env.step a).2 ≠ .error .invalidAction := by
      unfold MyEnv.step
      rw [if_pos hv]
      dsimp only
      split <;> simp
    exact ⟨⟨fun h => absurd h hne, fun h => absurd hv h⟩,
      fun h => absurd h hne⟩
  · have he : env.step a = (env, .error .invalidAction) := by
      unfold MyEnv.step
      rw [if_neg hv]
    rw [he]
    exact ⟨⟨fun _ => hv, fun _ => rfl⟩, fun _ => rfl⟩

/-- C5 witness: action `2` is invalid on a 2-action instance and leaves the
instance unchanged. -/
theorem claim_C5_witness :
    ((MyEnv.init [[1, 1], [1, 1]] 10 [0, 1]).step 2).1 =
      MyEnv.init [[1, 1], [1, 1]] 10 [0, 1] :=
  (claim_C5_invalid_action (MyEnv.init [[1, 1], [1, 1]] 10 [0, 1]) 2).2
    ((claim_C5_invalid_action (MyEnv.init [[1, 1], [1, 1]] 10 [0, 1]) 2).1.mpr
      (by decide))

/-- C7: `reset`, from any instance whatsoever, sets `state = 0` and
`transition_count = 0` and returns the pair `(0, {})`; it has no failure
conditions (it is a total function of the instance). -/
theorem claim_C7_reset (env : MyEnv) :
    (env.reset).1.state = 0 ∧ (env.reset).1.transition_count = some 0 ∧
    (env.reset).2 = (0, ([] : Info)) :=
  ⟨rfl, rfl, rfl⟩

/-- C9: every normal `step` return has `terminated = false`, for every
instance, state, action, and history. -/
theorem claim_C9_terminated_false (env : MyEnv) (a : Int) (ns : Nat) (r : ℚ)
    (te tr : Bool) (info : Info)
    (h : (env.step a).2 = .ok (ns, r, te, tr, info)) : te = false := by
  obtain ⟨tc, -, hte, -⟩ := step_ok_spec env a ns r te tr info h
  exact hte

/-- C9 witness: a concrete step returning normally with `terminated =
false`. -/
theorem claim_C9_witness :
    ((MyEnv.init [[1, 1], [1, 1]] 10 [0, 1]).reset.1.step 1).2 =
      .ok (1, 1, false, false, []) ∧ (false : Bool) = false :=
  ⟨by rfl, claim_C9_terminated_false
    (MyEnv.init [[1, 1], [1, 1]] 10 [0, 1]).reset.1 1 1 1 false false []
    (by rfl)⟩

/-- C10: neither `reset` nor `step` modifies `P`, `rewards`, `horizon`, the
cached `transition_matrix`, the spaces, or the `states`/`actions` helpers;
only `state` and `transition_count` can change.  (`get_reward_per_action`
and `get_transition_matrix` are pure functions of the instance in this
embedding: they return arrays and no instance, so they modify nothing by
construction.) -/
theorem claim_C10_frame (env : MyEnv) (a : Int) :
    (env.reset).1.P = env.P ∧ (env.reset).1.rewards = env.rewards ∧
    (env.reset).1.horizon = env.horizon ∧
    (env.reset).1.transition_matrix = env.transition_matrix ∧
    (env.reset).1.observation_space_n = env.observation_space_n ∧
    (env.reset).1.action_space_n = env.action_space_n ∧
    (env.reset).1.states = env.states ∧
    (env.reset).1.actions = env.actions ∧
    (env.step a).1.P = env.P ∧ (env.step a).1.rewards = env.rewards ∧
    (env.step a).1.horizon = env.horizon ∧
    (env.step a).1.transition_matrix = env.transition_matrix ∧
    (env.step a).1.observation_space_n = env.observation_space_n ∧
    (env.step a).1.action_space_n = env.action_space_n ∧
    (env.step a).1.states = env.states ∧
    (env.step a).1.actions = env.actions := by
  obtain ⟨p1, p2, p3, p4, p5, p6, p7, p8, -⟩ := step_frame env a
  exact ⟨rfl, rfl, rfl, rfl, rfl, rfl, rfl, rfl,
    p1, p2, p3, p8, p4, p5, p6, p7⟩

/-- C3 counterexample: on an instance whose success-probability matrix has a
zero entry (floats in `[0,1]` allow `0`), the cell at the deterministic
successor holds `P[s,a] = 0`, so "`T[s][a][s']` is non-zero iff
`s' = successor(s,a)`" fails at `s = a = 0`, `s' = 0 = successor(0,0)`. -/
theorem claim_C3_counterexample :
    ¬ ((MyEnv.init [[0, 1], [1, 1]] 10 [0, 1]).get_transition_matrix none none
        none 0 0 0 ≠ 0 ↔
      0 = clampStep (MyEnv.init [[0, 1], [1, 1]] 10 [0, 1]).P.length 0
        (0 : Int)) := by
  decide

/-- C3 amended: for every instance and every in-range `(s, a)`, the
no-argument tensor holds `P[s,a]` at the clamped deterministic successor, is
zero everywhere else (so non-zero entries occur only at the successor), and
each row `T[s,a,:]` has at most one non-zero entry — exactly one whenever
`P[s,a]` is itself non-zero. -/
theorem claim_C3_amended_tensor (env : MyEnv) (hWF : env.WF) (s a : Nat)
    (hs : s < env.P.length) (ha : a < env.P.length) :
    env.get_transition_matrix none none none s a
        (clampStep env.P.length s (a : Int)) = getD2 env.P s a ∧
    (∀ s2, env.get_transition_matrix none none none s a s2 ≠ 0 →
      s2 = clampStep env.P.length s (a : Int)) ∧
    ((Finset.range env.P.length).filter
      (fun s2 => env.get_transition_matrix none none none s a s2 ≠ 0)).card
        ≤ 1 ∧
    (getD2 env.P s a ≠ 0 →
      ((Finset.range env.P.length).filter
        (fun s2 => env.get_transition_matrix none none none s a s2 ≠ 0)).card
          = 1) := by
  obtain ⟨-, -, w3, w4, -⟩ := hWF
  have hT : ∀ s2, env.get_transition_matrix none none none s a s2 =
      if s2 = clampStep env.P.length s (a : Int) then getD2 env.P s a
      else 0 := by
    intro s2
    show buildT env.states env.actions env.P s a s2 = _
    rw [w3, w4, buildT_apply]
    simp [List.mem_range, List.length_range, hs, ha]
  have hn : 0 < env.P.length := by omega
  have hcl : clampStep env.P.length s (a : Int) < env.P.length :=
    clampStep_lt _ _ _ hn
  have honly : ∀ s2, env.get_transition_matrix none none none s a s2 ≠ 0 →
      s2 = clampStep env.P.length s (a : Int) := by
    intro s2 hne
    by_contra hne2
    rw [hT, if_neg hne2] at hne
    exact hne rfl
  refine ⟨by rw [hT, if_pos rfl], honly, ?_, ?_⟩
  · rw [Finset.card_le_one]
    intro x hx y hy
    rw [Finset.mem_filter] at hx hy
    rw [honly x hx.2, honly y hy.2]
  · intro hp
    refine Finset.card_eq_one.mpr ⟨clampStep env.P.length s (a : Int), ?_⟩
    ext s2
    simp only [Finset.mem_filter, Finset.mem_range, Finset.mem_singleton]
    constructor
    · rintro ⟨-, hne⟩
      exact honly s2 hne
    · rintro rfl
      refine ⟨hcl, ?_⟩
      rw [hT, if_pos rfl]
      exact hp

/-- C3 witness: the amended statement evaluated on the all-ones matrix at
`(s, a) = (0, 1)`. -/
theorem claim_C3_witness :
    (MyEnv.init [[1, 1], [1, 1]] 10 [0, 1]).get_transition_matrix none none
      none 0 1
      (clampStep (MyEnv.init [[1, 1], [1, 1]] 10 [0, 1]).P.length 0
        (1 : Int)) =
      getD2 (MyEnv.init [[1, 1], [1, 1]] 10 [0, 1]).P 0 1 ∧
    ((Finset.range (MyEnv.init [[1, 1], [1, 1]] 10 [0, 1]).P.length).filter
      (fun s2 => (MyEnv.init [[1, 1], [1, 1]] 10 [0, 1]).get_transition_matrix
        none none none 0 1 s2 ≠ 0)).card = 1 :=
  ⟨(claim_C3_amended_tensor (MyEnv.init [[1, 1], [1, 1]] 10 [0, 1])
      ⟨rfl, rfl, rfl, rfl, rfl⟩ 0 1 (by decide) (by decide)).1,
    (claim_C3_amended_tensor (MyEnv.init [[1, 1], [1, 1]] 10 [0, 1])
      ⟨rfl, rfl, rfl, rfl, rfl⟩ 0 1 (by decide) (by decide)).2.2.2
      (by decide)⟩

/-- C4: the three arguments of `get_transition_matrix` do NOT default
independently — the code falls back to ALL instance fields as soon as any
one argument is omitted — so a call supplying only `probabilities` ignores
the supplied matrix and rebuilds the tensor from the instance's own `P`
(contradicting the function's docstring, which says each argument
individually defaults when `None`).  Concretely: with internal
`P[0,0] = 1` and supplied `probabilities[0,0] = 5`, the returned tensor
still holds `1` at `T[0,0,0]`. -/
theorem claim_C4_ignores_supplied_P :
    (∀ (env : MyEnv) (Q : List (List ℚ)),
      env.get_transition_matrix none none (some Q) =
        buildT env.states env.actions env.P) ∧
    (MyEnv.init [[1, 1], [1, 1]] 10 [0, 1]).get_transition_matrix none none
      (some [[5, 1], [1, 1]]) 0 0 0 = 1 ∧
    getD2 [[5, 1], [1, 1]] 0 0 = 5 :=
  ⟨fun _ _ => rfl, by decide, by decide⟩

/-- C6 counterexample: immediately after construction `transition_count` is
not `0` — the attribute is simply never assigned by `__init__` — and a
`step` with a valid action on the fresh instance fails (with an attribute
error at the `truncated` comparison) instead of returning. -/
theorem claim_C6_counterexample :
    (MyEnv.init [[1, 1], [1, 1]] 10 [0, 1]).transition_count ≠ some 0 ∧
    ((MyEnv.init [[1, 1], [1, 1]] 10 [0, 1]).step 1).2 =
      .error .attributeError :=
  ⟨by decide, by rfl⟩

/-- C6 amended: immediately after construction the instance has `state = 0`,
but `transition_count` is uninitialized (not `0`); a `step` with a valid
action on the freshly constructed instance (whose rewards cover the reached
state) mutates `state` and then fails with an attribute error when it
evaluates the `truncated` comparison. -/
theorem claim_C6_amended_fresh (P : List (List ℚ)) (hz : Int) (r : List ℚ)
    (a : Int) (h0 : 0 ≤ a) (h1 : a < (P.length : Int))
    (hr : clampStep P.length 0 a < r.length) :
    (MyEnv.init P hz r).state = 0 ∧
    (MyEnv.init P hz r).transition_count = none ∧
    ((MyEnv.init P hz r).step a).1.state = clampStep P.length 0 a ∧
    ((MyEnv.init P hz r).step a).2 = .error .attributeError := by
  have hg : r.get? (clampStep P.length 0 a) =
      some (r.getD (clampStep P.length 0 a) 0) := by
    rw [List.getD_eq_get?]
    rcases hx : r.get? (clampStep P.length 0 a) with _ | v
    · rw [List.get?_eq_none] at hx
      omega
    · rfl
  refine ⟨rfl, rfl, ?_, ?_⟩
  · unfold MyEnv.step MyEnv.init
    dsimp only
    rw [if_pos ⟨h0, h1⟩]
  · unfold MyEnv.step MyEnv.init
    dsimp only
    rw [if_pos ⟨h0, h1⟩]
    dsimp only
    rw [hg]

/-- C6 witness: the amended statement on the default-shaped instance with
action `1`. -/
theorem claim_C6_witness :
    (MyEnv.init [[1, 1], [1, 1]] 10 [0, 1]).state = 0 ∧
    (MyEnv.init [[1, 1], [1, 1]] 10 [0, 1]).transition_count = none ∧
    ((MyEnv.init [[1, 1], [1, 1]] 10 [0, 1]).step 1).1.state =
      clampStep (MyEnv.init [[1, 1], [1, 1]] 10 [0, 1]).P.length 0 1 ∧
    ((MyEnv.init [[1, 1], [1, 1]] 10 [0, 1]).step 1).2 =
      .error .attributeError :=
  claim_C6_amended_fresh [[1, 1], [1, 1]] 10 [0, 1] 1 (by decide) (by decide)
    (by decide)

/-- C8: for every instance whose rewards table covers all `n` states,
`get_reward_per_action` returns the `n × n` table with
`R[s][a] = rewards[successor(s, a)]` for every in-range `(s, a)`, where the
successor is the same clamped-increment rule as `step` (stated as: the
rewards entry at the successor index exists and equals `R[s][a]`); the call
is a pure derivation (it builds and returns a fresh table, mutating no instance
field by construction in this embedding). -/
theorem claim_C8_reward_per_action (env : MyEnv) (hWF : env.WF)
    (hrew : env.P.length ≤ env.rewards.length) (s a : Nat)
    (hs : s < env.P.length) (ha : a < env.P.length) :
    env.rewards.get? (clampStep env.P.length s (a : Int)) =
      some (env.get_reward_per_action s a) := by
  obtain ⟨w1, w2, -, -, -⟩ := hWF
  have hn : 0 < env.P.length := by omega
  have hlt : clampStep env.P.length s (a : Int) < env.rewards.length := by
    have := clampStep_lt env.P.length s (a : Int) hn
    omega
  rw [get_reward_per_action_apply, w1, w2, if_pos ⟨hs, ha⟩]
  rw [List.getD_eq_get?]
  rcases hx : env.rewards.get? (clampStep env.P.length s (a : Int)) with _ | v
  · rw [List.get?_eq_none] at hx
    omega
  · rfl

/-- C8 witness: the reward table on the default-shaped instance at
`(s, a) = (0, 1)`. -/
theorem claim_C8_witness :
    (MyEnv.init [[1, 1], [1, 1]] 10 [0, 1]).rewards.get?
      (clampStep (MyEnv.init [[1, 1], [1, 1]] 10 [0, 1]).P.length 0
        (1 : Int)) =
      some ((MyEnv.init [[1, 1], [1, 1]] 10 [0, 1]).get_reward_per_action
        0 1) :=
  claim_C8_reward_per_action (MyEnv.init [[1, 1], [1, 1]] 10 [0, 1])
    ⟨rfl, rfl, rfl, rfl, rfl⟩ (by decide) 0 1 (by decide) (by decide)
